import Mathlib

/-!
# Verification of `git_validator.py` (git-compliance-checker)

Shallow embedding of the core of `src/git_validator.py`:
`TitleComplianceChecker` (title grammar + diagnostics), `LinkExtractor`
(markdown link scans) and `GitComplianceService.check_mr_compliance`.

Strings are modelled as `List Char`.  The embedding models the ASCII
behaviour of Python's `re` module and `str.strip()`/`str.lower()`:
`\s` is the six ASCII whitespace characters, `\d` the ASCII digits,
`[a-z]` with `re.IGNORECASE` the ASCII letters of either case, and
`[A-Z0-9]` with `re.IGNORECASE` the ASCII letters of either case plus
digits (Python's IGNORECASE flag applies to every character class in the
compiled pattern, which the unit tests of the repository confirm for the
project segment).

Each regular expression of the source is embedded as a deterministic
matching function.  Determinism is justified piecewise: in every pattern
of the source, each greedy repetition `X+` is immediately followed by a
literal that no character of the class `X` can match (for example
`[a-z]+` followed by `:`), so the backtracking engine's choice collapses
to "take the maximal run, then require the literal".  The two places
where real backtracking can occur -- the greedy `\s+` before the
non-greedy summary `.+?` of `TITLE_PATTERN` -- are modelled by an
explicit search that tries whitespace runs longest-first and summary
lengths shortest-first, exactly the order the backtracking engine uses.
-/

/-! ## Character classes (ASCII fragment of Python `re` / `str` semantics) -/

/-- The six whitespace characters recognised by `\s` and `str.strip()`
in the ASCII range: space, tab, newline, carriage return, vertical tab,
form feed. -/
def isPySpace (c : Char) : Bool :=
  c = ' ' || c = '\t' || c = '\n' || c = '\r' || c = Char.ofNat 11 || c = Char.ofNat 12

/-- `[a-z]` under `re.IGNORECASE`: an ASCII letter of either case. -/
def isAsciiLetter (c : Char) : Bool :=
  ('a' ≤ c && c ≤ 'z') || ('A' ≤ c && c ≤ 'Z')

/-- `\d` restricted to ASCII: a decimal digit. -/
def isDigitChar (c : Char) : Bool :=
  '0' ≤ c && c ≤ '9'

/-- `[A-Z0-9]` under `re.IGNORECASE`: an ASCII letter of either case or
a digit. -/
def isAlnumChar (c : Char) : Bool :=
  isAsciiLetter c || isDigitChar c

/-- `str.lower()` on one ASCII character. -/
def pyLower (c : Char) : Char :=
  if 'A' ≤ c && c ≤ 'Z' then Char.ofNat (c.toNat + 32) else c

/-- `str.lower()` on a string. -/
def pyLowerL (l : List Char) : List Char :=
  l.map pyLower

/-- `str.strip()`: drop leading and trailing whitespace. -/
def pyStrip (l : List Char) : List Char :=
  ((l.dropWhile isPySpace).reverse.dropWhile isPySpace).reverse

/-! ## Data model (`ComplianceStatus`, `ComplianceResult`, `ExtractedLinks`) -/

/-- `ComplianceStatus` enum of the source. -/
inductive ComplianceStatus where
  | COMPLIANT
  | NON_COMPLIANT
deriving DecidableEq, Repr

/-- Captured groups of `TITLE_PATTERN` (`match.groupdict()`), verbatim
slices of the matched title. -/
structure ParsedData where
  type : List Char
  summary : List Char
  project : List Char
  ticket : List Char
deriving DecidableEq, Repr

/-- `ComplianceResult` dataclass of the source. -/
structure ComplianceResult where
  status : ComplianceStatus
  is_valid : Bool
  errors : List String
  suggestions : List String
  parsed_data : Option ParsedData := none
deriving DecidableEq, Repr

/-- `ExtractedLinks` dataclass of the source. -/
structure ExtractedLinks where
  ticket_link : Option (List Char) := none
  documentation_link : Option (List Char) := none
  testing_link : Option (List Char) := none
deriving DecidableEq, Repr

/-! ## `TITLE_PATTERN` matcher

```
^(?P<type>[a-z]+):\s+(?P<summary>.+?)\s+\(Taiga\s+#(?P<project>[A-Z0-9]+)-(?P<ticket>\d+)\)$
```
compiled with `re.IGNORECASE` and applied by `re.match` to the stripped
title.  (Python's `$` would also match just before one trailing newline,
but `check_compliance` only ever applies the pattern to a stripped
title, which cannot end in a newline, so `$` is modelled as
end-of-input, matching the spec's "start-to-end" grammar.) -/

/-- Case-insensitive literal match: consume `word` (compared through
`pyLower`) from the front of the input, returning the verbatim consumed
characters and the rest. -/
def dropLiteralCI : List Char → List Char → Option (List Char × List Char)
  | [], l => some ([], l)
  | _ :: _, [] => none
  | p :: ps, c :: cs =>
    if pyLower c = pyLower p then
      (dropLiteralCI ps cs).map (fun vr => (c :: vr.1, vr.2))
    else none

/-- Tail of `TITLE_PATTERN` after the summary:
`\s+\(Taiga\s+#(?P<project>[A-Z0-9]+)-(?P<ticket>\d+)\)$`, returning the
captured project and ticket.  Every greedy run here is followed by a
literal outside its class, so the match is deterministic. -/
def matchTaigaTail (l : List Char) : Option (List Char × List Char) :=
  if (l.takeWhile isPySpace) = [] then none
  else
    match l.dropWhile isPySpace with
    | '(' :: l1 =>
      match dropLiteralCI ("taiga".toList) l1 with
      | some (_, l2) =>
        if (l2.takeWhile isPySpace) = [] then none
        else
          match l2.dropWhile isPySpace with
          | '#' :: l3 =>
            let proj := l3.takeWhile isAlnumChar
            if proj = [] then none
            else
              match l3.dropWhile isAlnumChar with
              | '-' :: l4 =>
                let tick := l4.takeWhile isDigitChar
                if tick = [] then none
                else
                  match l4.dropWhile isDigitChar with
                  | [')'] => some (proj, tick)
                  | _ => none
              | _ => none
          | _ => none
      | none => none
    | _ => none

/-- Non-greedy summary `(?P<summary>.+?)` followed by `matchTaigaTail`:
try summary lengths shortest-first (the engine's order for `+?`); a
summary character may be anything except newline (`.` without
`re.DOTALL`).  `acc` holds the summary read so far, in order. -/
def trySummary (acc : List Char) : List Char → Option (List Char × List Char × List Char)
  | [] => none
  | c :: rest =>
    if c = '\n' then none
    else
      match matchTaigaTail rest with
      | some (p, t) => some (acc ++ [c], p, t)
      | none => trySummary (acc ++ [c]) rest

/-- Greedy `\s+` after the colon, tried longest-first (the engine's
order for `+`): `w` counts down from the length of the maximal
whitespace run. -/
def tryWhitespaceRuns : Nat → List Char → Option (List Char × List Char × List Char)
  | 0, _ => none
  | w + 1, l =>
    match trySummary [] (l.drop (w + 1)) with
    | some r => some r
    | none => tryWhitespaceRuns w l

/-- `TITLE_PATTERN.match` on an (already stripped) title: the leading
`[a-z]+` run (greedy, followed by the literal `:` which is not a
letter, hence deterministic), then the colon, then the whitespace /
summary / Taiga-tail search. -/
def TITLE_PATTERN_match (l : List Char) : Option ParsedData :=
  let ty := l.takeWhile isAsciiLetter
  if ty = [] then none
  else
    match l.dropWhile isAsciiLetter with
    | ':' :: rest =>
      match tryWhitespaceRuns (rest.takeWhile isPySpace).length rest with
      | some (s, p, t) => some ⟨ty, s, p, t⟩
      | none => none
    | _ => none

/-! ## `_analyze_errors` -/

/-- The `VALID_TYPES` list of the source. -/
def VALID_TYPES : List (List Char) :=
  ["feat", "fix", "docs", "style", "refactor",
   "perf", "test", "chore", "build", "ci", "revert"].map String.toList

/-- `', '.join(VALID_TYPES)` as it appears in the suggestion strings. -/
def validTypesJoined : String :=
  "feat, fix, docs, style, refactor, perf, test, chore, build, ci, revert"

/-- Substring containment (`'Taiga' in title`). -/
def containsSub (pat : List Char) : List Char → Bool
  | [] => pat = []
  | c :: rest => (dropLiteralExact pat (c :: rest)).isSome || containsSub pat rest
where
  /-- Case-sensitive literal consumption from the front. -/
  dropLiteralExact : List Char → List Char → Option (List Char)
    | [], l => some l
    | _ :: _, [] => none
    | p :: ps, c :: cs => if c = p then dropLiteralExact ps cs else none

/-- One attempt of `re.search(r'\(Taiga\s+#[A-Z0-9]+-\d+\)', ..., re.IGNORECASE)`
anchored at the current position (no `$`: anything may follow the `)`).
Deterministic for the same greedy-run-then-foreign-literal reason as
`matchTaigaTail`. -/
def taigaRefAt (l : List Char) : Bool :=
  match l with
  | '(' :: l1 =>
    match dropLiteralCI ("taiga".toList) l1 with
    | some (_, l2) =>
      if (l2.takeWhile isPySpace) = [] then false
      else
        match l2.dropWhile isPySpace with
        | '#' :: l3 =>
          if (l3.takeWhile isAlnumChar) = [] then false
          else
            match l3.dropWhile isAlnumChar with
            | '-' :: l4 =>
              if (l4.takeWhile isDigitChar) = [] then false
              else
                match l4.dropWhile isDigitChar with
                | ')' :: _ => true
                | _ => false
            | _ => false
        | _ => false
    | none => false
  | _ => false

/-- `re.search`: try every position left to right. -/
def anyPosition (f : List Char → Bool) : List Char → Bool
  | [] => f []
  | c :: rest => f (c :: rest) || anyPosition f rest

/-- Probe (a)/(b) of `_analyze_errors`: `re.match(r'^[a-z]+:', title,
re.IGNORECASE)` — a nonempty leading letter run followed by `:` (the
greedy run is deterministic since `:` is not a letter); on success the
leading token is re-extracted, lower-cased, and looked up in
`VALID_TYPES`. -/
def typePrefixCheck (title : List Char) : List String × List String :=
  let ty := title.takeWhile isAsciiLetter
  let typePrefixB : Bool := !ty.isEmpty &&
    (match title.dropWhile isAsciiLetter with | ':' :: _ => true | _ => false)
  if typePrefixB then
    if pyLowerL ty ∈ VALID_TYPES then ([], [])
    else (["Tipe '" ++ String.mk (pyLowerL ty) ++ "' tidak valid"],
          ["Gunakan salah satu tipe: " ++ validTypesJoined])
  else (["Format tipe tidak ditemukan di awal title"],
        ["Mulai title dengan '<tipe>:' (contoh: feat:, fix:, docs:)"])

/-- Probe (c) of `_analyze_errors`: `re.match(r'^[a-z]+:[^\s]', title,
re.IGNORECASE)` — letters, colon, then one non-whitespace character. -/
def colonSpaceCheck (title : List Char) : List String × List String :=
  let noSpaceB : Bool := !(title.takeWhile isAsciiLetter).isEmpty &&
    (match title.dropWhile isAsciiLetter with
     | ':' :: c :: _ => !isPySpace c
     | _ => false)
  if noSpaceB then
    (["Tidak ada spasi setelah tanda titik dua (:)"],
     ["Tambahkan spasi setelah ':' (contoh: 'feat: ' bukan 'feat:')"])
  else ([], [])

/-- Probes (d)/(e) of `_analyze_errors`: `'Taiga' not in title and
'taiga' not in title.lower()`, else the
`\(Taiga\s+#[A-Z0-9]+-\d+\)` search. -/
def taigaCheck (title : List Char) : List String × List String :=
  if !containsSub ("Taiga".toList) title &&
     !containsSub ("taiga".toList) (pyLowerL title) then
    (["Referensi Taiga tidak ditemukan"],
     ["Tambahkan '(Taiga #<NamaProject>-<NomorTicket>)' di akhir title"])
  else if !anyPosition taigaRefAt title then
    (["Format referensi Taiga tidak sesuai"],
     ["Gunakan format: (Taiga #<NamaProject>-<NomorTicket>), contoh: (Taiga #DATB-123)"])
  else ([], [])

/-- `_analyze_errors`: the independent diagnostic probes, accumulating
error and suggestion strings in source order, with the generic fallback
when no probe fired. -/
def analyze_errors (title : List Char) : List String × List String :=
  let errors := (typePrefixCheck title).1 ++ (colonSpaceCheck title).1 ++ (taigaCheck title).1
  let suggestions := (typePrefixCheck title).2 ++ (colonSpaceCheck title).2 ++ (taigaCheck title).2
  if errors = [] then
    (["Format title tidak sesuai dengan standar"],
     ["Format yang benar: <tipe>: <ringkasan singkat> (Taiga #<NamaProject>-<NomorTicket>)",
      "Contoh: feat: Tambah fitur login (Taiga #DATB-123)"])
  else (errors, suggestions)

/-! ## `check_compliance` -/

/-- The early-return result for an empty or whitespace-only title. -/
def emptyTitleResult : ComplianceResult :=
  { status := .NON_COMPLIANT
    is_valid := false
    errors := ["Title tidak boleh kosong"]
    suggestions := ["Gunakan format: <tipe>: <ringkasan singkat> (Taiga #<NamaProject>-<NomorTicket>)"]
    parsed_data := none }

/-- Body of `check_compliance` after the empty check and `strip()`:
structural match, type check, summary-length checks, in source order. -/
def checkStripped (t : List Char) : ComplianceResult :=
  match TITLE_PATTERN_match t with
  | none =>
    let es := analyze_errors t
    { status := .NON_COMPLIANT, is_valid := false,
      errors := es.1, suggestions := es.2, parsed_data := none }
  | some pd =>
    let commit_type := pyLowerL pd.type
    if commit_type ∈ VALID_TYPES then
      let summary := pyStrip pd.summary
      let errors :=
        (if summary.length < 10 then ["Ringkasan terlalu pendek (minimal 10 karakter)"] else [])
        ++ (if 100 < summary.length then ["Ringkasan terlalu panjang (maksimal 100 karakter)"] else [])
      let suggestions :=
        (if summary.length < 10 then ["Berikan deskripsi yang lebih detail tentang perubahan"] else [])
        ++ (if 100 < summary.length then ["Ringkas deskripsi menjadi lebih singkat dan jelas"] else [])
      if errors = [] then
        { status := .COMPLIANT, is_valid := true,
          errors := [], suggestions := [], parsed_data := some pd }
      else
        { status := .NON_COMPLIANT, is_valid := false,
          errors := errors, suggestions := suggestions, parsed_data := some pd }
    else
      { status := .NON_COMPLIANT, is_valid := false,
        errors := ["Tipe commit '" ++ String.mk commit_type ++ "' tidak valid"],
        suggestions := ["Gunakan salah satu tipe: " ++ validTypesJoined],
        parsed_data := some pd }

/-- `TitleComplianceChecker.check_compliance`.  `if not title or not
title.strip()` is the empty / whitespace-only early return; afterwards
the title is stripped and checked. -/
def check_compliance (title : List Char) : ComplianceResult :=
  if title = [] || (pyStrip title) = [] then emptyTitleResult
  else checkStripped (pyStrip title)

/-- `check_compliance` when the caller may pass `None`: `not title` is
true for `None` exactly as for the empty string. -/
def check_compliance_opt : Option (List Char) → ComplianceResult
  | none => emptyTitleResult
  | some t => check_compliance t

/-! ## `LinkExtractor`

```
TICKET_LINK_PATTERN        = Ticket\s+Link:\s*\[(?:[^\]]+)\]\((?P<url>https?://[^\)]+)\)
DOCUMENTATION_LINK_PATTERN = Documentation\s+Link:\s*\[(?:[^\]]+)\]\((?P<url>https?://[^\)]+)\)
TESTING_LINK_PATTERN       = Testing\s+Link:\s*\[(?P<url>https?://[^\]]+)\]
```
all compiled with `re.IGNORECASE` and applied with `re.search`.  As
above each greedy run is followed by a literal outside its class, and
the optional `s` of `https?` cannot backtrack usefully (after skipping
the `s` the engine would need `:` where the `s` stands), so each
per-position attempt is deterministic; `re.search` is the left-to-right
scan over starting positions. -/

/-- `https?://` case-insensitively, returning the verbatim consumed
scheme characters and the rest. -/
def matchHttpScheme (l : List Char) : Option (List Char × List Char) :=
  match dropLiteralCI ("http".toList) l with
  | none => none
  | some (v1, r1) =>
    match r1 with
    | c :: r2 =>
      if pyLower c = 's' then
        match dropLiteralCI ("://".toList) r2 with
        | some (v2, r3) => some (v1 ++ c :: v2, r3)
        | none => none
      else
        match dropLiteralCI ("://".toList) r1 with
        | some (v2, r3) => some (v1 ++ v2, r3)
        | none => none
    | [] => none

/-- `\((?P<url>https?://[^\)]+)\)` given the input just after the `(`:
capture the scheme plus the maximal `)`-free run, then require `)`. -/
def matchUrlParen (l : List Char) : Option (List Char) :=
  match matchHttpScheme l with
  | none => none
  | some (v, r) =>
    if r.takeWhile (fun c => c ≠ ')') = [] then none
    else
      match r.dropWhile (fun c => c ≠ ')') with
      | ')' :: _ => some (v ++ r.takeWhile (fun c => c ≠ ')'))
      | _ => none

/-- `\s*\[[^\]]+\]\((?P<url>https?://[^\)]+)\)`: the bracketed
display text and parenthesised URL after the label. -/
def linkBracketPart (l2 : List Char) : Option (List Char) :=
  match l2.dropWhile isPySpace with   -- `\s*`
  | '[' :: l3 =>
    if l3.takeWhile (fun c => c ≠ ']') = [] then none
    else
      match l3.dropWhile (fun c => c ≠ ']') with
      | ']' :: '(' :: l4 => matchUrlParen l4
      | _ => none
  | _ => none

/-- One attempt of the ticket / documentation shape
`<word>\s+Link:\s*\[[^\]]+\]\((?P<url>https?://[^\)]+)\)` anchored at
the current position; `word` is `"ticket"` or `"documentation"`. -/
def labeledLinkAt (word : List Char) (l : List Char) : Option (List Char) :=
  match dropLiteralCI word l with
  | none => none
  | some (_, l1) =>
    if (l1.takeWhile isPySpace) = [] then none
    else
      match dropLiteralCI ("link:".toList) (l1.dropWhile isPySpace) with
      | none => none
      | some (_, l2) => linkBracketPart l2

/-- `\s*\[(?P<url>https?://[^\]]+)\]`: the bracketed bare URL after
the testing label. -/
def testingBracketPart (l2 : List Char) : Option (List Char) :=
  match l2.dropWhile isPySpace with   -- `\s*`
  | '[' :: l3 =>
    match matchHttpScheme l3 with
    | none => none
    | some (v, r) =>
      if r.takeWhile (fun c => c ≠ ']') = [] then none
      else
        match r.dropWhile (fun c => c ≠ ']') with
        | ']' :: _ => some (v ++ r.takeWhile (fun c => c ≠ ']'))
        | _ => none
  | _ => none

/-- One attempt of `Testing\s+Link:\s*\[(?P<url>https?://[^\]]+)\]`
anchored at the current position. -/
def testingLinkAt (l : List Char) : Option (List Char) :=
  match dropLiteralCI ("testing".toList) l with
  | none => none
  | some (_, l1) =>
    if (l1.takeWhile isPySpace) = [] then none
    else
      match dropLiteralCI ("link:".toList) (l1.dropWhile isPySpace) with
      | none => none
      | some (_, l2) => testingBracketPart l2

/-- `re.search`: first position (left to right) where the attempt
succeeds. -/
def searchPos (f : List Char → Option (List Char)) : List Char → Option (List Char)
  | [] => f []
  | c :: rest =>
    match f (c :: rest) with
    | some u => some u
    | none => searchPos f rest

/-- `TICKET_LINK_PATTERN.search(description)`, capture group `url`. -/
def ticketLinkSearch (d : List Char) : Option (List Char) :=
  searchPos (labeledLinkAt ("ticket".toList)) d

/-- `DOCUMENTATION_LINK_PATTERN.search(description)`, capture group `url`. -/
def documentationLinkSearch (d : List Char) : Option (List Char) :=
  searchPos (labeledLinkAt ("documentation".toList)) d

/-- `TESTING_LINK_PATTERN.search(description)`, capture group `url`. -/
def testingLinkSearch (d : List Char) : Option (List Char) :=
  searchPos testingLinkAt d

/-- `LinkExtractor.extract_links`: the empty check (`if not
description`), then the three independent scans, each captured URL
passed through `.strip()`. -/
def extract_links (description : List Char) : ExtractedLinks :=
  if description = [] then {}
  else
    { ticket_link := (ticketLinkSearch description).map pyStrip
      documentation_link := (documentationLinkSearch description).map pyStrip
      testing_link := (testingLinkSearch description).map pyStrip }

/-- `extract_links` when the caller may pass `None`: `not description`
is true for `None` exactly as for the empty string. -/
def extract_links_opt : Option (List Char) → ExtractedLinks
  | none => {}
  | some d => extract_links d

/-! ## `GitComplianceService` -/

/-- The dictionary returned by `check_mr_compliance`. -/
structure MrComplianceResult where
  compliance : ComplianceResult
  links : Option ExtractedLinks
deriving DecidableEq, Repr

/-- `GitComplianceService.check_mr_compliance`: validate the title, and
run the extractor only when `if mr_description:` is truthy, i.e. the
description is supplied and non-empty. -/
def check_mr_compliance (mr_title : List Char)
    (mr_description : Option (List Char) := none) : MrComplianceResult :=
  { compliance := check_compliance mr_title
    links :=
      match mr_description with
      | some d => if d = [] then none else some (extract_links d)
      | none => none }

/-- `GitComplianceService.check_commit_compliance`. -/
def check_commit_compliance (commit_title : List Char) : ComplianceResult :=
  check_compliance commit_title

/-! ## Generic list lemmas -/

/-- `takeWhile` over an append whose first part wholly satisfies `p`. -/
theorem takeWhile_append_of_all {p : Char → Bool} :
    ∀ {l1 : List Char} (l2 : List Char), (∀ c ∈ l1, p c = true) →
      (l1 ++ l2).takeWhile p = l1 ++ l2.takeWhile p := by
  intro l1
  induction l1 with
  | nil => intro l2 _; simp
  | cons a l ih =>
    intro l2 h
    have ha : p a = true := h a (by simp)
    simp only [List.cons_append, List.takeWhile_cons, ha, if_true]
    rw [ih l2 (fun c hc => h c (by simp [hc]))]

/-- `dropWhile` over an append whose first part wholly satisfies `p`. -/
theorem dropWhile_append_of_all {p : Char → Bool} :
    ∀ {l1 : List Char} (l2 : List Char), (∀ c ∈ l1, p c = true) →
      (l1 ++ l2).dropWhile p = l2.dropWhile p := by
  intro l1
  induction l1 with
  | nil => intro l2 _; simp
  | cons a l ih =>
    intro l2 h
    have ha : p a = true := h a (by simp)
    simp only [List.cons_append, List.dropWhile_cons, ha, if_true]
    exact ih l2 (fun c hc => h c (by simp [hc]))

/-- The head of a non-trivial `dropWhile` result falsifies `p`. -/
theorem dropWhile_head_false {p : Char → Bool} :
    ∀ {l : List Char} {c : Char} {r : List Char},
      l.dropWhile p = c :: r → p c = false := by
  intro l
  induction l with
  | nil => intro c r h; simp at h
  | cons a l ih =>
    intro c r h
    rw [List.dropWhile_cons] at h
    by_cases ha : p a = true
    · exact ih (by simpa [ha] using h)
    · have : a :: l = c :: r := by simpa [ha] using h
      cases this
      simpa using ha

/-- A nonempty suffix shares the last element. -/
theorem getLast?_of_suffix {l s : List Char} (h : s <:+ l) (hs : s ≠ []) :
    l.getLast? = s.getLast? := by
  obtain ⟨pre, rfl⟩ := h
  exact List.getLast?_append_of_ne_nil pre hs

/-! ## `pyStrip` lemmas -/

/-- Leading whitespace does not change `pyStrip`. -/
theorem pyStrip_append_left (w y : List Char) (h : ∀ c ∈ w, isPySpace c = true) :
    pyStrip (w ++ y) = pyStrip y := by
  unfold pyStrip
  rw [dropWhile_append_of_all y h]

/-- Trailing whitespace does not change `pyStrip`. -/
theorem pyStrip_append_right (y w : List Char) (h : ∀ c ∈ w, isPySpace c = true) :
    pyStrip (y ++ w) = pyStrip y := by
  unfold pyStrip
  rcases hu : y.dropWhile isPySpace with _ | ⟨c, u'⟩
  · have hally : ∀ c ∈ y, isPySpace c = true := List.dropWhile_eq_nil_iff.mp hu
    have : (y ++ w).dropWhile isPySpace = [] := by
      refine List.dropWhile_eq_nil_iff.mpr ?_
      intro x hx
      rcases List.mem_append.mp hx with hx | hx
      · exact hally x hx
      · exact h x hx
    rw [this]
  · have hc : isPySpace c = false := dropWhile_head_false hu
    have hdecomp : y = y.takeWhile isPySpace ++ (c :: u') := by
      rw [← hu, List.takeWhile_append_dropWhile]
    have hstep : (y ++ w).dropWhile isPySpace = c :: (u' ++ w) := by
      conv_lhs => rw [hdecomp]
      rw [List.append_assoc,
          dropWhile_append_of_all ((c :: u') ++ w)
            (fun x hx => List.mem_takeWhile_imp hx),
          List.cons_append, List.dropWhile_cons, hc]
      simp
    rw [hstep, List.reverse_cons, List.reverse_append, List.append_assoc,
        dropWhile_append_of_all (u'.reverse ++ [c])
          (fun x hx => h x (List.mem_reverse.mp hx)),
        List.reverse_cons]

/-- Surrounding whitespace does not change `pyStrip`. -/
theorem pyStrip_surround (w1 t w2 : List Char)
    (h1 : ∀ c ∈ w1, isPySpace c = true) (h2 : ∀ c ∈ w2, isPySpace c = true) :
    pyStrip (w1 ++ t ++ w2) = pyStrip t := by
  rw [List.append_assoc, pyStrip_append_left _ _ h1, pyStrip_append_right _ _ h2]

/-- `pyStrip` of a list whose first and last characters are not
whitespace is the list itself. -/
theorem pyStrip_eq_self {l : List Char} {c d : Char}
    (hhead : l.head? = some c) (hc : isPySpace c = false)
    (hlast : l.getLast? = some d) (hd : isPySpace d = false) :
    pyStrip l = l := by
  unfold pyStrip
  rcases l with _ | ⟨a, r⟩
  · simp at hhead
  · have hac : a = c := by simpa using hhead
    subst hac
    rw [List.dropWhile_cons_of_neg (by simp [hc])]
    rcases hrev : (a :: r).reverse with _ | ⟨b, rr⟩
    · simp at hrev
    · have hb : b = d := by
        have h1 := List.head?_reverse (a :: r)
        rw [hrev, hlast] at h1
        simpa using h1
      subst hb
      rw [List.dropWhile_cons_of_neg (by simp [hd]), ← hrev,
          List.reverse_reverse]

/-- `pyStrip` is idempotent. -/
theorem pyStrip_idem (l : List Char) : pyStrip (pyStrip l) = pyStrip l := by
  cases hs : pyStrip l with
  | nil => rfl
  | cons c r =>
    have hu : l.dropWhile isPySpace ≠ [] := by
      intro h
      unfold pyStrip at hs
      rw [h] at hs
      simp at hs
    rcases hu' : l.dropWhile isPySpace with _ | ⟨a, u⟩
    · exact absurd hu' hu
    · have ha : isPySpace a = false := dropWhile_head_false hu'
      have hsv : pyStrip l = ((a :: u).reverse.dropWhile isPySpace).reverse := by
        unfold pyStrip
        rw [hu']
      have hv : (a :: u).reverse.dropWhile isPySpace ≠ [] := by
        intro h
        rw [hsv, h] at hs
        simp at hs
      -- the head of `pyStrip l` is `a`, the non-whitespace head of the
      -- left-stripped list
      have hlastv : ((a :: u).reverse.dropWhile isPySpace).getLast? = some a := by
        rw [← getLast?_of_suffix (List.dropWhile_suffix isPySpace) hv,
            List.getLast?_reverse]
        rfl
      have hheadv : (pyStrip l).head? = some a := by
        rw [hsv, List.head?_reverse]
        exact hlastv
      -- the last of `pyStrip l` is the non-whitespace head of the
      -- reversed dropWhile
      rcases hw : (a :: u).reverse.dropWhile isPySpace with _ | ⟨b, w⟩
      · exact absurd hw hv
      · have hb : isPySpace b = false := dropWhile_head_false hw
        have hlast : (pyStrip l).getLast? = some b := by
          rw [hsv, hw, List.getLast?_reverse]
          rfl
        have hca : c = a := by
          rw [hs] at hheadv
          simpa using hheadv
        rw [hs] at hlast
        rw [← hs]
        exact pyStrip_eq_self hheadv (hca ▸ ha) (hs ▸ hlast) hb

/-! ## Structural lemmas about the `TITLE_PATTERN` matcher -/

/-- The remainder after a `dropWhile` step through a cons pattern is a
suffix of the input. -/
theorem suffix_of_dropWhile_cons {p : Char → Bool} {l r : List Char} {c : Char}
    (h : l.dropWhile p = c :: r) : r <:+ l :=
  (List.suffix_cons c r).trans (h ▸ List.dropWhile_suffix p)

/-- The remainder of a successful `dropLiteralCI` is a suffix of the
input. -/
theorem dropLiteralCI_suffix :
    ∀ {w l v r : List Char}, dropLiteralCI w l = some (v, r) → r <:+ l := by
  intro w
  induction w with
  | nil =>
    intro l v r h
    simp only [dropLiteralCI, Option.some_inj, Prod.mk.injEq] at h
    exact h.2 ▸ List.suffix_refl l
  | cons p ps ih =>
    intro l v r h
    cases l with
    | nil => simp [dropLiteralCI] at h
    | cons c cs =>
      by_cases hc : pyLower c = pyLower p
      · simp only [dropLiteralCI, if_pos hc, Option.map_eq_some'] at h
        obtain ⟨⟨v', r'⟩, hd, heq⟩ := h
        cases heq
        exact (ih hd).trans (List.suffix_cons c cs)
      · simp [dropLiteralCI, if_neg hc] at h

/-- The consumed part of a successful `dropLiteralCI` lower-cases to the
pattern word. -/
theorem dropLiteralCI_map :
    ∀ {w l v r : List Char}, dropLiteralCI w l = some (v, r) →
      v.map pyLower = w.map pyLower := by
  intro w
  induction w with
  | nil =>
    intro l v r h
    simp only [dropLiteralCI, Option.some_inj, Prod.mk.injEq] at h
    rw [← h.1]
  | cons p ps ih =>
    intro l v r h
    cases l with
    | nil => simp [dropLiteralCI] at h
    | cons c cs =>
      by_cases hc : pyLower c = pyLower p
      · simp only [dropLiteralCI, if_pos hc, Option.map_eq_some'] at h
        obtain ⟨⟨v', r'⟩, hd, heq⟩ := h
        cases heq
        rw [List.map_cons, List.map_cons, hc, ih hd]
      · simp [dropLiteralCI, if_neg hc] at h

/-- Running `dropLiteralCI` on an input that starts with a word of the
same lower-casing consumes exactly that word. -/
theorem dropLiteralCI_of_append :
    ∀ {w w' : List Char} (r : List Char), w'.map pyLower = w.map pyLower →
      dropLiteralCI w (w' ++ r) = some (w', r) := by
  intro w
  induction w with
  | nil =>
    intro w' r h
    have : w' = [] := by simpa using h
    subst this
    rfl
  | cons p ps ih =>
    intro w' r h
    cases w' with
    | nil => simp at h
    | cons c cs =>
      simp only [List.map_cons, List.cons.injEq] at h
      simp only [List.cons_append, dropLiteralCI, h.1, if_true]
      rw [show cs.append r = cs ++ r from rfl, ih r h.2]
      rfl

/-- Anatomy of a successful Taiga-tail match: nonempty alphanumeric
project, nonempty numeric ticket, and the input ends at the closing
parenthesis. -/
theorem matchTaigaTail_spec {l p t : List Char} (h : matchTaigaTail l = some (p, t)) :
    p ≠ [] ∧ (∀ c ∈ p, isAlnumChar c = true) ∧
    t ≠ [] ∧ (∀ c ∈ t, isDigitChar c = true) ∧
    l.getLast? = some ')' := by
  simp only [matchTaigaTail] at h
  split at h
  all_goals try exact Option.noConfusion h
  rename_i hws1
  split at h
  all_goals try exact Option.noConfusion h
  rename_i l1 heq1
  split at h
  all_goals try exact Option.noConfusion h
  rename_i u l2 heq2
  split at h
  all_goals try exact Option.noConfusion h
  rename_i hws2
  split at h
  all_goals try exact Option.noConfusion h
  rename_i l3 heq3
  split at h
  all_goals try exact Option.noConfusion h
  rename_i hproj
  split at h
  all_goals try exact Option.noConfusion h
  rename_i l4 heq4
  split at h
  all_goals try exact Option.noConfusion h
  rename_i htick
  split at h
  all_goals try exact Option.noConfusion h
  rename_i heq5
  simp only [Option.some_inj, Prod.mk.injEq] at h
  obtain ⟨hp', ht'⟩ := h
  have s5 : [')'] <:+ l4 := heq5 ▸ List.dropWhile_suffix isDigitChar
  have s4 : l4 <:+ l3 := suffix_of_dropWhile_cons heq4
  have s3 : l3 <:+ l2 := suffix_of_dropWhile_cons heq3
  have s2 : l2 <:+ l1 := dropLiteralCI_suffix heq2
  have s1 : l1 <:+ l := suffix_of_dropWhile_cons heq1
  have sall : [')'] <:+ l := s5.trans (s4.trans (s3.trans (s2.trans s1)))
  refine ⟨?_, ?_, ?_, ?_, ?_⟩
  · rw [← hp']; exact hproj
  · intro c hc; exact List.mem_takeWhile_imp (hp' ▸ hc)
  · rw [← ht']; exact htick
  · intro c hc; exact List.mem_takeWhile_imp (ht' ▸ hc)
  · rw [getLast?_of_suffix sall (by simp)]
    rfl

/-- A successful summary search hands some suffix of its input to
`matchTaigaTail`. -/
theorem trySummary_spec :
    ∀ {l acc s p t : List Char}, trySummary acc l = some (s, p, t) →
      ∃ l', l' <:+ l ∧ matchTaigaTail l' = some (p, t) := by
  intro l
  induction l with
  | nil => intro acc s p t h; exact Option.noConfusion h
  | cons c rest ih =>
    intro acc s p t h
    simp only [trySummary] at h
    split at h
    · exact Option.noConfusion h
    split at h
    · rename_i p0 t0 heq
      simp only [Option.some_inj, Prod.mk.injEq] at h
      exact ⟨rest, List.suffix_cons c rest, by rw [heq, h.2.1, h.2.2]⟩
    · obtain ⟨l', hsuf, hm⟩ := ih h
      exact ⟨l', hsuf.trans (List.suffix_cons c rest), hm⟩

/-- A successful whitespace-run search hands some suffix of its input to
`matchTaigaTail`. -/
theorem tryWhitespaceRuns_spec :
    ∀ {w : Nat} {l s p t : List Char}, tryWhitespaceRuns w l = some (s, p, t) →
      ∃ l', l' <:+ l ∧ matchTaigaTail l' = some (p, t) := by
  intro w
  induction w with
  | zero => intro l s p t h; exact Option.noConfusion h
  | succ w ih =>
    intro l s p t h
    simp only [tryWhitespaceRuns] at h
    split at h
    · rename_i r heq
      rw [Option.some_inj.mp h] at heq
      obtain ⟨l', hsuf, hm⟩ := trySummary_spec heq
      exact ⟨l', hsuf.trans (List.drop_suffix (w + 1) l), hm⟩
    · exact ih h

/-- Characters recognised by `isPySpace`. -/
theorem isPySpace_spec {c : Char} (h : isPySpace c = true) :
    c = ' ' ∨ c = '\t' ∨ c = '\n' ∨ c = '\r' ∨ c = Char.ofNat 11 ∨ c = Char.ofNat 12 := by
  have h' := h
  simp only [isPySpace, Bool.or_eq_true, decide_eq_true_eq] at h'
  tauto

/-- An ASCII letter is not whitespace. -/
theorem isAsciiLetter_not_space {c : Char} (h : isAsciiLetter c = true) :
    isPySpace c = false := by
  by_contra hc
  have hsp := isPySpace_spec (Bool.not_eq_false _ ▸ hc)
  rcases hsp with rfl | rfl | rfl | rfl | rfl | rfl <;> exact absurd h (by decide)

/-- Anatomy of a successful `TITLE_PATTERN` match: the captured type is
a nonempty run of letters, the project is nonempty alphanumeric, the
ticket nonempty numeric, and the title carries no surrounding
whitespace (it starts with a letter and ends with `)`), so stripping it
changes nothing. -/
theorem TITLE_PATTERN_match_spec {l : List Char} {pd : ParsedData}
    (h : TITLE_PATTERN_match l = some pd) :
    pd.type ≠ [] ∧ (∀ c ∈ pd.type, isAsciiLetter c = true) ∧
    pd.project ≠ [] ∧ (∀ c ∈ pd.project, isAlnumChar c = true) ∧
    pd.ticket ≠ [] ∧ (∀ c ∈ pd.ticket, isDigitChar c = true) ∧
    pyStrip l = l ∧ l ≠ [] := by
  simp only [TITLE_PATTERN_match] at h
  split at h
  all_goals try exact Option.noConfusion h
  rename_i hty
  split at h
  all_goals try exact Option.noConfusion h
  rename_i rest heq1
  split at h
  all_goals try exact Option.noConfusion h
  rename_i s p t heq2
  have hpd : pd = ⟨l.takeWhile isAsciiLetter, s, p, t⟩ := (Option.some_inj.mp h).symm
  obtain ⟨l', hsuf, hm⟩ := tryWhitespaceRuns_spec heq2
  obtain ⟨_, hpmem, htne, htmem, hlast'⟩ := matchTaigaTail_spec hm
  have hl'ne : l' ≠ [] := by
    intro hnil
    rw [hnil] at hlast'
    exact Option.noConfusion hlast'
  -- the whole title ends in the `)` that closed the Taiga reference
  have hlast : l.getLast? = some ')' := by
    have hs1 : l' <:+ rest := hsuf
    have hs2 : rest <:+ l :=
      (List.suffix_cons ':' rest).trans (heq1 ▸ List.dropWhile_suffix isAsciiLetter)
    rw [getLast?_of_suffix (hs1.trans hs2) hl'ne]
    exact hlast'
  -- the whole title starts with the first letter of the type
  obtain ⟨c, r, hcons, hcl⟩ : ∃ c r, l = c :: r ∧ isAsciiLetter c = true := by
    cases hl : l with
    | nil => rw [hl] at hty; exact absurd rfl hty
    | cons c r =>
      refine ⟨c, r, rfl, ?_⟩
      by_contra hcl
      rw [hl, List.takeWhile_cons_of_neg (by simpa using hcl)] at hty
      exact hty rfl
  have hstrip : pyStrip l = l := by
    refine pyStrip_eq_self (c := c) (d := ')')
      (by rw [hcons]; rfl) (isAsciiLetter_not_space hcl) hlast (by decide)
  refine ⟨?_, ?_, ?_, ?_, ?_, ?_, hstrip, by rw [hcons]; exact List.cons_ne_nil c r⟩
  · rw [hpd]; exact hty
  · intro x hx
    rw [hpd] at hx
    exact List.mem_takeWhile_imp hx
  · rw [hpd]; exact (matchTaigaTail_spec hm).1
  · intro x hx; rw [hpd] at hx; exact hpmem x hx
  · rw [hpd]; exact htne
  · intro x hx; rw [hpd] at hx; exact htmem x hx

/-! ## Claims -/

/-- C1: every title matching the structural grammar whose lower-cased
captured type is recognized and whose trimmed summary has length
between 10 and 100 yields a COMPLIANT result: `is_valid = true`, empty
errors and suggestions, and `parsed_data` holding the verbatim captured
type, summary, project and ticket. -/
theorem claim_C1 (t : List Char) (pd : ParsedData)
    (hmatch : TITLE_PATTERN_match t = some pd)
    (htype : pyLowerL pd.type ∈ VALID_TYPES)
    (hlo : 10 ≤ (pyStrip pd.summary).length)
    (hhi : (pyStrip pd.summary).length ≤ 100) :
    check_compliance t =
      ⟨.COMPLIANT, true, [], [], some pd⟩ := by
  obtain ⟨-, -, -, -, -, -, hstrip, hne⟩ := TITLE_PATTERN_match_spec hmatch
  unfold check_compliance
  rw [if_neg (by simp [hne, hstrip])]
  rw [hstrip]
  unfold checkStripped
  rw [hmatch]
  simp only [if_pos htype]
  have h1 : ¬ ((pyStrip pd.summary).length < 10) := by omega
  have h2 : ¬ (100 < (pyStrip pd.summary).length) := by omega
  simp only [if_neg h1, if_neg h2, List.nil_append]
  simp

/-- Witness for C1: the canonical compliant title of the test suite. -/
theorem claim_C1_witness :
    TITLE_PATTERN_match ("feat: Tambah fitur login (Taiga #DATB-123)".toList) =
      some ⟨"feat".toList, "Tambah fitur login".toList, "DATB".toList, "123".toList⟩ ∧
    check_compliance ("feat: Tambah fitur login (Taiga #DATB-123)".toList) =
      ⟨.COMPLIANT, true, [], [],
        some ⟨"feat".toList, "Tambah fitur login".toList, "DATB".toList, "123".toList⟩⟩ :=
  ⟨by decide, claim_C1 _ _ (by decide) (by decide) (by decide) (by decide)⟩

/-- The parsed data of `checkStripped` is exactly the grammar match. -/
theorem checkStripped_parsed (t : List Char) :
    (checkStripped t).parsed_data = TITLE_PATTERN_match t := by
  unfold checkStripped
  split
  · rename_i heq
    rw [heq]
  · rename_i pd heq
    rw [heq]
    by_cases htype : pyLowerL pd.type ∈ VALID_TYPES
    · simp only [if_pos htype]
      split <;> split <;> rfl
    · simp only [if_neg htype]

/-- C4: `parsed_data` is present exactly when the trimmed title matches
the structural grammar — it equals the grammar's captures on a match
(even when later semantic checks fail) and is absent otherwise. -/
theorem claim_C4 (t : List Char) :
    (check_compliance t).parsed_data = TITLE_PATTERN_match (pyStrip t) := by
  unfold check_compliance
  by_cases hc : (t = [] || pyStrip t = [] : Bool) = true
  · rw [if_pos hc]
    simp only [Bool.or_eq_true, decide_eq_true_eq] at hc
    have hstrip : pyStrip t = [] := by
      rcases hc with rfl | h
      · rfl
      · exact h
    rw [hstrip]
    rfl
  · rw [if_neg hc]
    exact checkStripped_parsed (pyStrip t)

/-- The type-prefix probe contributes an error iff it contributes a
suggestion. -/
theorem typePrefixCheck_balance (t : List Char) :
    (typePrefixCheck t).1 = [] ↔ (typePrefixCheck t).2 = [] := by
  simp only [typePrefixCheck]
  repeat' split
  all_goals simp

/-- The colon-space probe contributes an error iff it contributes a
suggestion. -/
theorem colonSpaceCheck_balance (t : List Char) :
    (colonSpaceCheck t).1 = [] ↔ (colonSpaceCheck t).2 = [] := by
  simp only [colonSpaceCheck]
  repeat' split
  all_goals simp

/-- The Taiga probe contributes an error iff it contributes a
suggestion. -/
theorem taigaCheck_balance (t : List Char) :
    (taigaCheck t).1 = [] ↔ (taigaCheck t).2 = [] := by
  simp only [taigaCheck]
  repeat' split
  all_goals simp

/-- `_analyze_errors` always returns at least one error and one
suggestion (the generic fallback guarantees the degenerate case). -/
theorem analyze_errors_ne_nil (t : List Char) :
    (analyze_errors t).1 ≠ [] ∧ (analyze_errors t).2 ≠ [] := by
  simp only [analyze_errors]
  split
  · simp
  · rename_i herr
    refine ⟨herr, ?_⟩
    intro hsug
    apply herr
    rw [List.append_eq_nil, List.append_eq_nil] at hsug ⊢
    exact ⟨⟨(typePrefixCheck_balance t).mpr hsug.1.1,
            (colonSpaceCheck_balance t).mpr hsug.1.2⟩,
           (taigaCheck_balance t).mpr hsug.2⟩

/-- The three structural invariants on the stripped-title path. -/
theorem checkStripped_invariant (t : List Char) :
    ((checkStripped t).is_valid = true ↔ (checkStripped t).status = .COMPLIANT) ∧
    ((checkStripped t).errors = [] ↔ (checkStripped t).status = .COMPLIANT) ∧
    ((checkStripped t).suggestions = [] ↔ (checkStripped t).status = .COMPLIANT) := by
  unfold checkStripped
  split
  · obtain ⟨he, hs⟩ := analyze_errors_ne_nil t
    exact ⟨by simp, by simpa using he, by simpa using hs⟩
  · rename_i pd heq
    by_cases htype : pyLowerL pd.type ∈ VALID_TYPES
    · simp only [if_pos htype]
      by_cases hshort : (pyStrip pd.summary).length < 10
      · have hlong : ¬ 100 < (pyStrip pd.summary).length := by omega
        rw [if_pos hshort, if_neg hlong, if_pos hshort, if_neg hlong]
        simp
      · by_cases hlong : 100 < (pyStrip pd.summary).length
        · rw [if_neg hshort, if_pos hlong, if_neg hshort, if_pos hlong]
          simp
        · rw [if_neg hshort, if_neg hlong, if_neg hshort, if_neg hlong]
          simp
    · simp only [if_neg htype]
      simp

/-- The three structural invariants of every result: `is_valid` mirrors
the status, and the error and suggestion lists are empty exactly on
compliance. -/
theorem check_compliance_invariant (t : List Char) :
    ((check_compliance t).is_valid = true ↔ (check_compliance t).status = .COMPLIANT) ∧
    ((check_compliance t).errors = [] ↔ (check_compliance t).status = .COMPLIANT) ∧
    ((check_compliance t).suggestions = [] ↔ (check_compliance t).status = .COMPLIANT) := by
  unfold check_compliance
  by_cases hc : (t = [] || pyStrip t = [] : Bool) = true
  · rw [if_pos hc]
    exact ⟨by simp [emptyTitleResult], by simp [emptyTitleResult], by simp [emptyTitleResult]⟩
  · rw [if_neg hc]
    exact checkStripped_invariant (pyStrip t)

/-- C5: for every input title, `is_valid` holds iff the status is
COMPLIANT, and the error and suggestion sequences are empty iff the
outcome is compliant. -/
theorem claim_C5 (t : List Char) :
    ((check_compliance t).is_valid = true ↔ (check_compliance t).status = .COMPLIANT) ∧
    ((check_compliance t).errors = [] ↔ (check_compliance t).status = .COMPLIANT) ∧
    ((check_compliance t).suggestions = [] ↔ (check_compliance t).status = .COMPLIANT) :=
  check_compliance_invariant t

/-- C6: no input makes the core fail: empty, whitespace-only or absent
titles yield the well-formed empty-title outcome, every non-valid
outcome carries at least one diagnostic, and an absent or empty
description extracts to the all-absent `ExtractedLinks`.  (Totality of
the embedded functions is the no-exception property itself.) -/
theorem claim_C6 :
    (∀ t : Option (List Char), (check_compliance_opt t).is_valid = false →
      (check_compliance_opt t).errors ≠ []) ∧
    (check_compliance_opt none = emptyTitleResult) ∧
    (∀ t : List Char, pyStrip t = [] → check_compliance t = emptyTitleResult) ∧
    (extract_links_opt none = { ticket_link := none, documentation_link := none,
                                testing_link := none }) ∧
    (∀ d : List Char, d = [] → extract_links d =
      { ticket_link := none, documentation_link := none, testing_link := none }) := by
  refine ⟨?_, rfl, ?_, rfl, ?_⟩
  · intro t hiv
    cases t with
    | none => simp [check_compliance_opt, emptyTitleResult]
    | some s =>
      have hinv := check_compliance_invariant s
      simp only [check_compliance_opt] at hiv ⊢
      intro he
      have hcomp := hinv.2.1.mp he
      have hval := hinv.1.mpr hcomp
      rw [hval] at hiv
      exact Bool.noConfusion hiv
  · intro t hstrip
    unfold check_compliance
    rw [if_pos (by simp [hstrip])]
  · intro d hd
    subst hd
    rfl

/-- Witness for C6: the whitespace-only title of the test suite. -/
theorem claim_C6_witness :
    (check_compliance_opt (some ("   ".toList))).errors ≠ [] ∧
    check_compliance ("   ".toList) = emptyTitleResult :=
  ⟨claim_C6.1 (some ("   ".toList)) (by decide),
   claim_C6.2.2.1 ("   ".toList) (by decide)⟩

/-- C9: surrounding whitespace never affects the outcome: for a title
that is not whitespace-only, any amount of leading and trailing
whitespace may be added or removed without changing the result, which
always equals the result on the trimmed title. -/
theorem claim_C9 (w1 w2 t : List Char)
    (h1 : ∀ c ∈ w1, isPySpace c = true) (h2 : ∀ c ∈ w2, isPySpace c = true)
    (hne : pyStrip t ≠ []) :
    check_compliance (w1 ++ t ++ w2) = check_compliance t ∧
    check_compliance t = check_compliance (pyStrip t) := by
  have key : ∀ u : List Char, pyStrip u = pyStrip t →
      check_compliance u = checkStripped (pyStrip t) := by
    intro u hu
    have hcond : ¬ ((u = [] || pyStrip u = [] : Bool) = true) := by
      simp only [Bool.or_eq_true, decide_eq_true_eq]
      rintro (rfl | hbad)
      · exact hne (hu.symm.trans rfl)
      · exact hne (hu ▸ hbad)
    unfold check_compliance
    rw [if_neg hcond, hu]
  exact ⟨(key _ (pyStrip_surround w1 t w2 h1 h2)).trans (key t rfl).symm,
         (key t rfl).trans (key _ (pyStrip_idem t)).symm⟩

/-- Witness for C9: a compliant title surrounded by spaces is still
COMPLIANT, with the same outcome as the trimmed title. -/
theorem claim_C9_witness :
    check_compliance ("  ".toList ++ "feat: Tambah fitur login (Taiga #DATB-123)".toList
        ++ " ".toList) =
      check_compliance ("feat: Tambah fitur login (Taiga #DATB-123)".toList) ∧
    check_compliance ("feat: Tambah fitur login (Taiga #DATB-123)".toList) =
      check_compliance (pyStrip ("feat: Tambah fitur login (Taiga #DATB-123)".toList)) :=
  claim_C9 ("  ".toList) (" ".toList) ("feat: Tambah fitur login (Taiga #DATB-123)".toList)
    (by decide) (by decide) (by decide)

/-- C3 counterexample: a title whose project segment is the lowercase
`datb` nevertheless matches the structural grammar and is COMPLIANT
with parsed fields, because `re.IGNORECASE` applies to the
`[A-Z0-9]` class as well — refuting the claim that such titles fail the
structural match. -/
theorem claim_C3_counterexample :
    TITLE_PATTERN_match ("feat: Update some feature (Taiga #datb-456)".toList) =
      some ⟨"feat".toList, "Update some feature".toList, "datb".toList, "456".toList⟩ ∧
    (check_compliance ("feat: Update some feature (Taiga #datb-456)".toList)).status =
      ComplianceStatus.COMPLIANT ∧
    (check_compliance ("feat: Update some feature (Taiga #datb-456)".toList)).parsed_data ≠
      none := ⟨by decide, by decide, by decide⟩

/-- C3 (amended): since `re.IGNORECASE` applies to the whole compiled
pattern, the project segment accepts ASCII letters of either case and
digits (and the ticket segment only digits); a title with a lowercase
project can be COMPLIANT. -/
theorem claim_C3_amended :
    (∀ (l : List Char) (pd : ParsedData), TITLE_PATTERN_match l = some pd →
      (∀ c ∈ pd.project, isAlnumChar c = true) ∧
      (∀ c ∈ pd.ticket, isDigitChar c = true)) ∧
    (check_compliance ("feat: Update some feature (Taiga #datb-456)".toList)).status =
      ComplianceStatus.COMPLIANT := by
  constructor
  · intro l pd h
    obtain ⟨-, -, -, hproj, -, htick, -, -⟩ := TITLE_PATTERN_match_spec h
    exact ⟨hproj, htick⟩
  · decide

/-- Witness for the amended C3 at the lowercase-project title. -/
theorem claim_C3_witness :
    (∀ c ∈ ("datb".toList), isAlnumChar c = true) ∧
    (∀ c ∈ ("456".toList), isDigitChar c = true) :=
  claim_C3_amended.1 ("feat: Update some feature (Taiga #datb-456)".toList)
    ⟨"feat".toList, "Update some feature".toList, "datb".toList, "456".toList⟩
    (by decide)

/-- C8: the grammar itself rejects empty project and empty ticket
segments (every successful match captures nonempty segments), and the
two canonical zero-length examples fall into the diagnostic path with
the Taiga-format-invalid diagnostic and no parsed fields. -/
theorem claim_C8 :
    (∀ (l : List Char) (pd : ParsedData), TITLE_PATTERN_match l = some pd →
      pd.project ≠ [] ∧ pd.ticket ≠ []) ∧
    check_compliance ("feat: Update fitur baru (Taiga #-123)".toList) =
      { status := .NON_COMPLIANT, is_valid := false,
        errors := ["Format referensi Taiga tidak sesuai"],
        suggestions := ["Gunakan format: (Taiga #<NamaProject>-<NomorTicket>), contoh: (Taiga #DATB-123)"],
        parsed_data := none } ∧
    check_compliance ("feat: Update fitur baru (Taiga #PROJ-)".toList) =
      { status := .NON_COMPLIANT, is_valid := false,
        errors := ["Format referensi Taiga tidak sesuai"],
        suggestions := ["Gunakan format: (Taiga #<NamaProject>-<NomorTicket>), contoh: (Taiga #DATB-123)"],
        parsed_data := none } := by
  refine ⟨?_, by decide, by decide⟩
  intro l pd h
  obtain ⟨-, -, hpne, -, htne, -, -, -⟩ := TITLE_PATTERN_match_spec h
  exact ⟨hpne, htne⟩

/-- Witness for C8 at a successful match with concrete captures. -/
theorem claim_C8_witness : ("DATB".toList ≠ ([] : List Char)) ∧ ("123".toList ≠ ([] : List Char)) :=
  claim_C8.1 ("feat: Tambah fitur login (Taiga #DATB-123)".toList)
    ⟨"feat".toList, "Tambah fitur login".toList, "DATB".toList, "123".toList⟩
    (by decide)

/-- C2 counterexample: a supplied-but-empty description yields an
absent `links` value (the code guards with Python truthiness,
`if mr_description:`), refuting the claim that it yields a present
all-absent `ExtractedLinks`. -/
theorem claim_C2_counterexample :
    (check_mr_compliance ("fix: Perbaiki bug login (Taiga #DATB-456)".toList)
      (some [])).links = none := rfl

/-- C2 (amended): `links` is present exactly when a non-empty
description is supplied — an absent description and a supplied empty
description both yield an absent `links`, while a supplied non-empty
description always yields a present `ExtractedLinks` (all-absent when
nothing is recognized). -/
theorem claim_C2_amended :
    (∀ title : List Char, (check_mr_compliance title none).links = none) ∧
    (∀ title : List Char, (check_mr_compliance title (some [])).links = none) ∧
    (∀ (title d : List Char), d ≠ [] →
      (check_mr_compliance title (some d)).links = some (extract_links d)) ∧
    (check_mr_compliance ("fix: Perbaiki bug login (Taiga #DATB-456)".toList)
        (some ("tidak ada link di sini".toList))).links =
      some { ticket_link := none, documentation_link := none, testing_link := none } := by
  refine ⟨fun _ => rfl, fun _ => rfl, ?_, by decide⟩
  intro title d hd
  simp only [check_mr_compliance]
  rw [if_neg hd]

/-- Witness for the amended C2 at a non-empty description. -/
theorem claim_C2_witness :
    (check_mr_compliance ("fix: Perbaiki bug login (Taiga #DATB-456)".toList)
        (some ("Testing Link: [https://t.example/1]".toList))).links =
      some (extract_links ("Testing Link: [https://t.example/1]".toList)) :=
  claim_C2_amended.2.2.1 ("fix: Perbaiki bug login (Taiga #DATB-456)".toList)
    ("Testing Link: [https://t.example/1]".toList) (by decide)

/-! ## Lemmas about the link scans -/

/-- A scan skips a region at whose positions every attempt fails. -/
theorem searchPos_append_fail (f : List Char → Option (List Char)) :
    ∀ (pre d : List Char), (∀ c ∈ pre, ∀ z, f (c :: z) = none) →
      searchPos f (pre ++ d) = searchPos f d := by
  intro pre
  induction pre with
  | nil => intro d _; rfl
  | cons c rest ih =>
    intro d h
    show (match f (c :: (rest ++ d)) with
          | some u => some u
          | none => searchPos f (rest ++ d)) = searchPos f d
    rw [h c (by simp) (rest ++ d)]
    exact ih d (fun x hx z => h x (by simp [hx]) z)

/-- A scan returns the match at its starting position when that
position already matches. -/
theorem searchPos_hit {f : List Char → Option (List Char)} {d u : List Char}
    (h : f d = some u) : searchPos f d = some u := by
  cases d with
  | nil => rw [searchPos, h]
  | cons c r =>
    show (match f (c :: r) with
          | some u => some u
          | none => searchPos f r) = some u
    rw [h]

/-- Every URL a scan returns was produced by the per-position attempt
on some input. -/
theorem searchPos_some {f : List Char → Option (List Char)} :
    ∀ {d u : List Char}, searchPos f d = some u → ∃ s, f s = some u := by
  intro d
  induction d with
  | nil => intro u h; exact ⟨[], h⟩
  | cons c r ih =>
    intro u h
    rw [show searchPos f (c :: r) = (match f (c :: r) with
          | some u => some u
          | none => searchPos f r) from rfl] at h
    cases hf : f (c :: r) with
    | some v => rw [hf] at h; exact ⟨c :: r, hf.trans h⟩
    | none => rw [hf] at h; exact ih h

/-- A ticket / documentation attempt fails outright when the first
character does not lower-case to the label's first letter. -/
theorem labeledLinkAt_head_fail {w0 c : Char} {ws : List Char} (z : List Char)
    (h : pyLower c ≠ pyLower w0) : labeledLinkAt (w0 :: ws) (c :: z) = none := by
  have hd : dropLiteralCI (w0 :: ws) (c :: z) = none := by
    simp only [dropLiteralCI, if_neg h]
  unfold labeledLinkAt
  rw [hd]

/-- A testing attempt fails outright when the first character does not
lower-case to `t`. -/
theorem testingLinkAt_head_fail {c : Char} (z : List Char)
    (h : pyLower c ≠ 't') : testingLinkAt (c :: z) = none := by
  have hd : dropLiteralCI ("testing".toList) (c :: z) = none := by
    simp only [show ("testing".toList) = 't' :: "esting".toList from rfl,
      dropLiteralCI, if_neg (show ¬ pyLower c = pyLower 't' by
        simpa [show pyLower 't' = 't' from by decide] using h)]
  unfold testingLinkAt
  rw [hd]

/-- Everything in a stripped string was in the string. -/
theorem mem_pyStrip {c : Char} {l : List Char} (h : c ∈ pyStrip l) : c ∈ l := by
  unfold pyStrip at h
  rw [List.mem_reverse] at h
  have h1 := (List.dropWhile_suffix isPySpace).mem h
  rw [List.mem_reverse] at h1
  exact (List.dropWhile_suffix isPySpace).mem h1

/-- `matchHttpScheme` on a literal `https://` head consumes exactly the
scheme. -/
theorem matchHttpScheme_https (rest : List Char) :
    matchHttpScheme ("https://".toList ++ rest) = some ("https://".toList, rest) := by
  show matchHttpScheme ('h':: 't':: 't':: 'p':: 's':: ':':: '/':: '/'::rest) =
    some ('h':: 't':: 't':: 'p':: 's':: ':':: '/':: '/'::[], rest)
  have h1 : dropLiteralCI ("http".toList) ('h':: 't':: 't':: 'p':: 's':: ':':: '/':: '/'::rest) =
      some ("http".toList, 's':: ':':: '/':: '/'::rest) :=
    @dropLiteralCI_of_append ("http".toList) ("http".toList) _ (by decide)
  have h2 : dropLiteralCI ("://".toList) (':':: '/':: '/'::rest) =
      some ("://".toList, rest) :=
    @dropLiteralCI_of_append ("://".toList) ("://".toList) _ (by decide)
  unfold matchHttpScheme
  rw [h1]
  simp only [show pyLower 's' = 's' from by decide]
  rw [if_pos trivial, h2]
  rfl


/-- `matchUrlParen` on `https://<rest1>)<mid>` with a `)`-free nonempty
`rest1` captures `https://<rest1>`. -/
theorem matchUrlParen_shape (rest1 mid : List Char) (hne : rest1 ≠ [])
    (hnp : ∀ c ∈ rest1, c ≠ ')') :
    matchUrlParen ("https://".toList ++ rest1 ++ (')' :: mid)) =
      some ("https://".toList ++ rest1) := by
  have ht : (rest1 ++ ')'::mid).takeWhile (fun c => c ≠ ')') = rest1 := by
    rw [takeWhile_append_of_all (p := fun c => decide (c ≠ ')')) (')'::mid)
          (fun c hc => by simpa using hnp c hc),
        List.takeWhile_cons_of_neg (by simp)]
    simp
  have hd : (rest1 ++ ')'::mid).dropWhile (fun c => c ≠ ')') = ')'::mid := by
    rw [dropWhile_append_of_all (p := fun c => decide (c ≠ ')')) (')'::mid)
          (fun c hc => by simpa using hnp c hc),
        List.dropWhile_cons_of_neg (by simp)]
  rw [List.append_assoc]
  unfold matchUrlParen
  rw [matchHttpScheme_https]
  show (if (rest1 ++ ')'::mid).takeWhile (fun c => c ≠ ')') = [] then none
        else match (rest1 ++ ')'::mid).dropWhile (fun c => c ≠ ')') with
             | ')' :: _ => some ("https://".toList ++
                 (rest1 ++ ')'::mid).takeWhile (fun c => c ≠ ')'))
             | _ => none) =
      some ("https://".toList ++ rest1)
  rw [ht, hd, if_neg hne]
  rfl

/-- `linkBracketPart` on ` [<disp>](https://<rest1>)<mid>` captures the
URL when the display text is nonempty and `]`-free and the URL tail is
nonempty and `)`-free. -/
theorem linkBracketPart_shape (disp rest1 mid : List Char)
    (hdisp : disp ≠ []) (hdisp2 : ∀ c ∈ disp, c ≠ ']')
    (hr : rest1 ≠ []) (hr2 : ∀ c ∈ rest1, c ≠ ')') :
    linkBracketPart (' ' :: '[' ::
        (disp ++ (']' :: '(' :: ("https://".toList ++ rest1 ++ (')' :: mid))))) =
      some ("https://".toList ++ rest1) := by
  have hdw : (' ' :: '[' ::
        (disp ++ (']' :: '(' :: ("https://".toList ++ rest1 ++ (')' :: mid))))).dropWhile
          isPySpace = '[' ::
        (disp ++ (']' :: '(' :: ("https://".toList ++ rest1 ++ (')' :: mid)))) := by
    rw [List.dropWhile_cons_of_pos (by decide), List.dropWhile_cons_of_neg (by decide)]
  have ht : (disp ++ (']' :: '(' ::
        ("https://".toList ++ rest1 ++ (')' :: mid)))).takeWhile (fun c => c ≠ ']') = disp := by
    rw [takeWhile_append_of_all (p := fun c => decide (c ≠ ']')) _
          (fun c hc => by simpa using hdisp2 c hc),
        List.takeWhile_cons_of_neg (by simp)]
    simp
  have hd : (disp ++ (']' :: '(' ::
        ("https://".toList ++ rest1 ++ (')' :: mid)))).dropWhile (fun c => c ≠ ']') =
      ']' :: '(' :: ("https://".toList ++ rest1 ++ (')' :: mid)) := by
    rw [dropWhile_append_of_all (p := fun c => decide (c ≠ ']')) _
          (fun c hc => by simpa using hdisp2 c hc),
        List.dropWhile_cons_of_neg (by simp)]
  unfold linkBracketPart
  rw [hdw]
  show (if (disp ++ (']' :: '(' ::
            ("https://".toList ++ rest1 ++ (')' :: mid)))).takeWhile (fun c => c ≠ ']') = []
        then none
        else match (disp ++ (']' :: '(' ::
            ("https://".toList ++ rest1 ++ (')' :: mid)))).dropWhile (fun c => c ≠ ']') with
             | ']' :: '(' :: l4 => matchUrlParen l4
             | _ => none) =
      some ("https://".toList ++ rest1)
  rw [ht, hd, if_neg hdisp]
  exact matchUrlParen_shape rest1 mid hr hr2

/-- A labeled (ticket / documentation) attempt at the start of
`<winst> Link: [<disp>](https://<rest1>)<mid>` captures the URL, for any
written label `winst` that lower-cases to `word`. -/
theorem labeledLinkAt_shape (word winst disp rest1 mid : List Char)
    (hwi : winst.map pyLower = word.map pyLower)
    (hdisp : disp ≠ []) (hdisp2 : ∀ c ∈ disp, c ≠ ']')
    (hr : rest1 ≠ []) (hr2 : ∀ c ∈ rest1, c ≠ ')') :
    labeledLinkAt word (winst ++ (' ' :: 'L' :: 'i' :: 'n' :: 'k' :: ':' :: ' ' :: '[' ::
        (disp ++ (']' :: '(' :: ("https://".toList ++ rest1 ++ (')' :: mid)))))) =
      some ("https://".toList ++ rest1) := by
  unfold labeledLinkAt
  rw [dropLiteralCI_of_append _ hwi]
  show (if ((' ' :: 'L' :: 'i' :: 'n' :: 'k' :: ':' :: ' ' :: '[' ::
            (disp ++ (']' :: '(' :: ("https://".toList ++ rest1 ++
              (')' :: mid))))).takeWhile isPySpace) = [] then none
        else match dropLiteralCI ("link:".toList)
            ((' ' :: 'L' :: 'i' :: 'n' :: 'k' :: ':' :: ' ' :: '[' ::
              (disp ++ (']' :: '(' :: ("https://".toList ++ rest1 ++
                (')' :: mid))))).dropWhile isPySpace) with
             | none => none
             | some (_, l2) => linkBracketPart l2) =
      some ("https://".toList ++ rest1)
  rw [List.takeWhile_cons_of_pos (by decide), List.takeWhile_cons_of_neg (by decide),
      List.dropWhile_cons_of_pos (by decide), List.dropWhile_cons_of_neg (by decide),
      if_neg (by simp)]
  rw [show ('L' :: 'i' :: 'n' :: 'k' :: ':' :: ' ' :: '[' ::
        (disp ++ (']' :: '(' :: ("https://".toList ++ rest1 ++ (')' :: mid))))) =
      ("Link:".toList ++ (' ' :: '[' ::
        (disp ++ (']' :: '(' :: ("https://".toList ++ rest1 ++ (')' :: mid)))))) from rfl,
      dropLiteralCI_of_append _ (by decide)]
  exact linkBracketPart_shape disp rest1 mid hdisp hdisp2 hr hr2

/-- `testingBracketPart` on ` [https://<rest1>]<mid>` captures the URL
when the URL tail is nonempty and `]`-free. -/
theorem testingBracketPart_shape (rest1 mid : List Char)
    (hr : rest1 ≠ []) (hr2 : ∀ c ∈ rest1, c ≠ ']') :
    testingBracketPart (' ' :: '[' ::
        ("https://".toList ++ rest1 ++ (']' :: mid))) =
      some ("https://".toList ++ rest1) := by
  have ht : (rest1 ++ ']'::mid).takeWhile (fun c => c ≠ ']') = rest1 := by
    rw [takeWhile_append_of_all (p := fun c => decide (c ≠ ']')) (']'::mid)
          (fun c hc => by simpa using hr2 c hc),
        List.takeWhile_cons_of_neg (by simp)]
    simp
  have hd : (rest1 ++ ']'::mid).dropWhile (fun c => c ≠ ']') = ']'::mid := by
    rw [dropWhile_append_of_all (p := fun c => decide (c ≠ ']')) (']'::mid)
          (fun c hc => by simpa using hr2 c hc),
        List.dropWhile_cons_of_neg (by simp)]
  have hdw : (' ' :: '[' ::
        ("https://".toList ++ rest1 ++ (']' :: mid))).dropWhile isPySpace =
      '[' :: ("https://".toList ++ rest1 ++ (']' :: mid)) := by
    rw [List.dropWhile_cons_of_pos (by decide), List.dropWhile_cons_of_neg (by decide)]
  unfold testingBracketPart
  rw [hdw]
  show (match matchHttpScheme ("https://".toList ++ rest1 ++ (']' :: mid)) with
        | none => none
        | some (v, r) =>
          if r.takeWhile (fun c => c ≠ ']') = [] then none
          else
            match r.dropWhile (fun c => c ≠ ']') with
            | ']' :: _ => some (v ++ r.takeWhile (fun c => c ≠ ']'))
            | _ => none) =
      some ("https://".toList ++ rest1)
  rw [List.append_assoc, matchHttpScheme_https]
  show (if (rest1 ++ (']' :: mid)).takeWhile (fun c => c ≠ ']') = [] then none
        else match (rest1 ++ (']' :: mid)).dropWhile (fun c => c ≠ ']') with
             | ']' :: _ => some ("https://".toList ++
                 (rest1 ++ (']' :: mid)).takeWhile (fun c => c ≠ ']'))
             | _ => none) =
      some ("https://".toList ++ rest1)
  rw [ht, hd, if_neg hr]
  rfl

/-- A testing attempt at the start of
`<winst> Link: [https://<rest1>]<mid>` captures the URL, for any
written label `winst` that lower-cases to `testing`. -/
theorem testingLinkAt_shape (winst rest1 mid : List Char)
    (hwi : winst.map pyLower = ("testing".toList).map pyLower)
    (hr : rest1 ≠ []) (hr2 : ∀ c ∈ rest1, c ≠ ']') :
    testingLinkAt (winst ++ (' ' :: 'L' :: 'i' :: 'n' :: 'k' :: ':' :: ' ' :: '[' ::
        ("https://".toList ++ rest1 ++ (']' :: mid)))) =
      some ("https://".toList ++ rest1) := by
  unfold testingLinkAt
  rw [dropLiteralCI_of_append _ hwi]
  show (if ((' ' :: 'L' :: 'i' :: 'n' :: 'k' :: ':' :: ' ' :: '[' ::
            ("https://".toList ++ rest1 ++ (']' :: mid))).takeWhile isPySpace) = []
        then none
        else match dropLiteralCI ("link:".toList)
            ((' ' :: 'L' :: 'i' :: 'n' :: 'k' :: ':' :: ' ' :: '[' ::
              ("https://".toList ++ rest1 ++ (']' :: mid))).dropWhile isPySpace) with
             | none => none
             | some (_, l2) => testingBracketPart l2) =
      some ("https://".toList ++ rest1)
  rw [List.takeWhile_cons_of_pos (by decide), List.takeWhile_cons_of_neg (by decide),
      List.dropWhile_cons_of_pos (by decide), List.dropWhile_cons_of_neg (by decide),
      if_neg (by simp)]
  rw [show ('L' :: 'i' :: 'n' :: 'k' :: ':' :: ' ' :: '[' ::
        ("https://".toList ++ rest1 ++ (']' :: mid))) =
      ("Link:".toList ++ (' ' :: '[' ::
        ("https://".toList ++ rest1 ++ (']' :: mid)))) from rfl,
      dropLiteralCI_of_append _ (by decide)]
  exact testingBracketPart_shape rest1 mid hr hr2

/-- The characters of `https://<rest1>` strip to themselves when
`rest1` is nonempty with no trailing whitespace. -/
theorem pyStrip_https_url (rest1 : List Char) (hr : rest1 ≠ [])
    (hns : isPySpace (rest1.getLast hr) = false) :
    pyStrip ("https://".toList ++ rest1) = "https://".toList ++ rest1 := by
  refine pyStrip_eq_self (c := 'h') (d := rest1.getLast hr) rfl (by decide) ?_ hns
  rw [List.getLast?_append_of_ne_nil _ hr, List.getLast?_eq_getLast_of_ne_nil hr]

/-- C7: when a category label occurs more than once with a well-formed
link, the extractor captures the URL of the first occurrence in the
text and ignores the later duplicate declaration — for each of the
three categories (the region before the first label contains no
character that could start the label).  The three scans are independent
accesses of the three patterns over the same text. -/
theorem claim_C7 :
    (∀ (pre disp1 rest1 disp2 rest2 mid : List Char),
      (∀ c ∈ pre, pyLower c ≠ 't') →
      disp1 ≠ [] → (∀ c ∈ disp1, c ≠ ']') →
      rest1 ≠ [] → (∀ c ∈ rest1, c ≠ ')' ∧ isPySpace c = false) →
      (extract_links (pre ++ ("Ticket Link: [".toList ++ (disp1 ++ ("](https://".toList ++
          (rest1 ++ (")\nTicket Link: [".toList ++ (disp2 ++ ("](https://".toList ++
          (rest2 ++ (")".toList ++ mid))))))))))).ticket_link =
        some ("https://".toList ++ rest1)) ∧
    (∀ (pre disp1 rest1 disp2 rest2 mid : List Char),
      (∀ c ∈ pre, pyLower c ≠ 'd') →
      disp1 ≠ [] → (∀ c ∈ disp1, c ≠ ']') →
      rest1 ≠ [] → (∀ c ∈ rest1, c ≠ ')' ∧ isPySpace c = false) →
      (extract_links (pre ++ ("Documentation Link: [".toList ++ (disp1 ++ ("](https://".toList ++
          (rest1 ++ (")\nDocumentation Link: [".toList ++ (disp2 ++ ("](https://".toList ++
          (rest2 ++ (")".toList ++ mid))))))))))).documentation_link =
        some ("https://".toList ++ rest1)) ∧
    (∀ (pre rest1 rest2 mid : List Char),
      (∀ c ∈ pre, pyLower c ≠ 't') →
      rest1 ≠ [] → (∀ c ∈ rest1, c ≠ ']' ∧ isPySpace c = false) →
      (extract_links (pre ++ ("Testing Link: [https://".toList ++
          (rest1 ++ ("]\nTesting Link: [https://".toList ++
          (rest2 ++ ("]".toList ++ mid))))))).testing_link =
        some ("https://".toList ++ rest1)) ∧
    (∀ d : List Char, d ≠ [] → extract_links d =
      ({ ticket_link := (ticketLinkSearch d).map pyStrip,
         documentation_link := (documentationLinkSearch d).map pyStrip,
         testing_link := (testingLinkSearch d).map pyStrip } : ExtractedLinks)) := by
  refine ⟨?_, ?_, ?_, ?_⟩
  · intro pre disp1 rest1 disp2 rest2 mid hpre hd1 hd2 hr1 hr2
    have hdne : pre ++ ("Ticket Link: [".toList ++ (disp1 ++ ("](https://".toList ++
        (rest1 ++ (")\nTicket Link: [".toList ++ (disp2 ++ ("](https://".toList ++
        (rest2 ++ (")".toList ++ mid))))))))) ≠ [] := by
      intro h
      exact List.cons_ne_nil _ _ (List.append_eq_nil.mp h).2
    unfold extract_links
    rw [if_neg hdne]
    show (ticketLinkSearch _).map pyStrip = _
    unfold ticketLinkSearch
    rw [searchPos_append_fail (labeledLinkAt ("ticket".toList)) pre _
        (fun c hc z => show labeledLinkAt ("ticket".toList) (c :: z) = none from
          @labeledLinkAt_head_fail 't' c ("icket".toList) z
            (fun h' => hpre c hc (h'.trans (by decide)))),
      searchPos_hit (show labeledLinkAt ("ticket".toList)
          ("Ticket Link: [".toList ++ (disp1 ++ ("](https://".toList ++
            (rest1 ++ (")\nTicket Link: [".toList ++ (disp2 ++ ("](https://".toList ++
            (rest2 ++ (")".toList ++ mid))))))))) =
        some ("https://".toList ++ rest1) from
        labeledLinkAt_shape ("ticket".toList) ("Ticket".toList) disp1 rest1
          ("\nTicket Link: [".toList ++ (disp2 ++ ("](https://".toList ++
            (rest2 ++ (")".toList ++ mid)))))
          (by decide) hd1 hd2 hr1 (fun c hc => (hr2 c hc).1))]
    rw [Option.map_some']
    exact congrArg some (pyStrip_https_url rest1 hr1
      (hr2 _ (List.getLast_mem hr1)).2)
  · intro pre disp1 rest1 disp2 rest2 mid hpre hd1 hd2 hr1 hr2
    have hdne : pre ++ ("Documentation Link: [".toList ++ (disp1 ++ ("](https://".toList ++
        (rest1 ++ (")\nDocumentation Link: [".toList ++ (disp2 ++ ("](https://".toList ++
        (rest2 ++ (")".toList ++ mid))))))))) ≠ [] := by
      intro h
      exact List.cons_ne_nil _ _ (List.append_eq_nil.mp h).2
    unfold extract_links
    rw [if_neg hdne]
    show (documentationLinkSearch _).map pyStrip = _
    unfold documentationLinkSearch
    rw [searchPos_append_fail (labeledLinkAt ("documentation".toList)) pre _
        (fun c hc z => show labeledLinkAt ("documentation".toList) (c :: z) = none from
          @labeledLinkAt_head_fail 'd' c ("ocumentation".toList) z
            (fun h' => hpre c hc (h'.trans (by decide)))),
      searchPos_hit (show labeledLinkAt ("documentation".toList)
          ("Documentation Link: [".toList ++ (disp1 ++ ("](https://".toList ++
            (rest1 ++ (")\nDocumentation Link: [".toList ++ (disp2 ++ ("](https://".toList ++
            (rest2 ++ (")".toList ++ mid))))))))) =
        some ("https://".toList ++ rest1) from
        labeledLinkAt_shape ("documentation".toList) ("Documentation".toList) disp1 rest1
          ("\nDocumentation Link: [".toList ++ (disp2 ++ ("](https://".toList ++
            (rest2 ++ (")".toList ++ mid)))))
          (by decide) hd1 hd2 hr1 (fun c hc => (hr2 c hc).1))]
    rw [Option.map_some']
    exact congrArg some (pyStrip_https_url rest1 hr1
      (hr2 _ (List.getLast_mem hr1)).2)
  · intro pre rest1 rest2 mid hpre hr1 hr2
    have hdne : pre ++ ("Testing Link: [https://".toList ++
        (rest1 ++ ("]\nTesting Link: [https://".toList ++
        (rest2 ++ ("]".toList ++ mid))))) ≠ [] := by
      intro h
      exact List.cons_ne_nil _ _ (List.append_eq_nil.mp h).2
    unfold extract_links
    rw [if_neg hdne]
    show (testingLinkSearch _).map pyStrip = _
    unfold testingLinkSearch
    rw [searchPos_append_fail testingLinkAt pre _
        (fun c hc z => testingLinkAt_head_fail z (hpre c hc)),
      searchPos_hit (show testingLinkAt
          ("Testing Link: [https://".toList ++
            (rest1 ++ ("]\nTesting Link: [https://".toList ++
            (rest2 ++ ("]".toList ++ mid))))) =
        some ("https://".toList ++ rest1) from
        testingLinkAt_shape ("Testing".toList) rest1
          ("\nTesting Link: [https://".toList ++ (rest2 ++ ("]".toList ++ mid)))
          (by decide) hr1 (fun c hc => (hr2 c hc).1))]
    rw [Option.map_some']
    exact congrArg some (pyStrip_https_url rest1 hr1
      (hr2 _ (List.getLast_mem hr1)).2)
  · intro d hd
    unfold extract_links
    rw [if_neg hd]

/-- Witness for C7: each category declared twice; the first URL wins in
each scan. -/
theorem claim_C7_witness :
    (extract_links ("Deskripsi: Ticket Link: [(Taiga #PROJ-1)](https://example.com/first)\nTicket Link: [x](https://example.com/second)".toList)).ticket_link =
      some ("https://example.com/first".toList) ∧
    (extract_links ("Testing Link: [https://example.com/test1]\nTesting Link: [https://example.com/test2]".toList)).testing_link =
      some ("https://example.com/test1".toList) :=
  ⟨claim_C7.1 ("Deskripsi: ".toList) ("(Taiga #PROJ-1)".toList)
      ("example.com/first".toList) ("x".toList) ("example.com/second".toList) []
      (by decide) (by decide) (by decide) (by decide) (by decide),
   claim_C7.2.2.1 [] ("example.com/test1".toList) ("example.com/test2".toList) []
      (by decide) (by decide) (by decide)⟩

/-- Every character consumed by the scheme matcher lower-cases into
`https://`. -/
theorem matchHttpScheme_chars :
    ∀ {l v r : List Char}, matchHttpScheme l = some (v, r) →
      ∀ c ∈ v, pyLower c ∈ ("https://".toList) := by
  intro l v r h
  have hsub : ∀ x : Char, x ∈ ("http".toList) → x ∈ ("https://".toList) := by
    intro x hx
    rcases (by simpa using hx : x = 'h' ∨ x = 't' ∨ x = 't' ∨ x = 'p') with
      rfl | rfl | rfl | rfl <;> decide
  have hsub2 : ∀ x : Char, x ∈ ("://".toList) → x ∈ ("https://".toList) := by
    intro x hx
    rcases (by simpa using hx : x = ':' ∨ x = '/' ∨ x = '/') with rfl | rfl | rfl <;> decide
  unfold matchHttpScheme at h
  split at h
  all_goals try exact Option.noConfusion h
  rename_i v1 r1 heq1
  have hm1 : v1.map pyLower = "http".toList := by
    rw [dropLiteralCI_map heq1]
    decide
  split at h
  all_goals try exact Option.noConfusion h
  rename_i c0 r2
  split at h
  · rename_i hc0
    split at h
    all_goals try exact Option.noConfusion h
    rename_i v2 r3 heq3
    have hm2 : v2.map pyLower = "://".toList := by
      rw [dropLiteralCI_map heq3]
      decide
    simp only [Option.some_inj, Prod.mk.injEq] at h
    intro c hc
    rw [← h.1] at hc
    rcases List.mem_append.mp hc with hc1 | hc1
    · exact hsub _ (hm1 ▸ List.mem_map_of_mem pyLower hc1)
    · rcases List.mem_cons.mp hc1 with rfl | hc2
      · rw [hc0]; decide
      · exact hsub2 _ (hm2 ▸ List.mem_map_of_mem pyLower hc2)
  · split at h
    all_goals try exact Option.noConfusion h
    rename_i v2 r3 heq3
    have hm2 : v2.map pyLower = "://".toList := by
      rw [dropLiteralCI_map heq3]
      decide
    simp only [Option.some_inj, Prod.mk.injEq] at h
    intro c hc
    rw [← h.1] at hc
    rcases List.mem_append.mp hc with hc1 | hc1
    · exact hsub _ (hm1 ▸ List.mem_map_of_mem pyLower hc1)
    · exact hsub2 _ (hm2 ▸ List.mem_map_of_mem pyLower hc1)

/-- A URL captured by `matchUrlParen` never contains `)`. -/
theorem matchUrlParen_no_paren :
    ∀ {l u : List Char}, matchUrlParen l = some u → ∀ c ∈ u, c ≠ ')' := by
  intro l u h
  unfold matchUrlParen at h
  split at h
  all_goals try exact Option.noConfusion h
  rename_i v r heq
  split at h
  · exact Option.noConfusion h
  split at h
  all_goals try exact Option.noConfusion h
  simp only [Option.some_inj] at h
  intro c hc
  rw [← h] at hc
  rcases List.mem_append.mp hc with hc1 | hc1
  · intro hcc
    have := matchHttpScheme_chars heq c hc1
    rw [hcc] at this
    rw [show pyLower ')' = ')' from by decide] at this
    exact absurd this (by decide)
  · simpa using List.mem_takeWhile_imp hc1

/-- Every URL a ticket / documentation attempt returns came from
`matchUrlParen`. -/
theorem labeledLinkAt_url :
    ∀ {w l u : List Char}, labeledLinkAt w l = some u →
      ∃ l4, matchUrlParen l4 = some u := by
  intro w l u h
  unfold labeledLinkAt at h
  split at h
  all_goals try exact Option.noConfusion h
  split at h
  · exact Option.noConfusion h
  split at h
  all_goals try exact Option.noConfusion h
  rename_i l2 heq2
  unfold linkBracketPart at h
  split at h
  all_goals try exact Option.noConfusion h
  split at h
  · exact Option.noConfusion h
  split at h
  all_goals try exact Option.noConfusion h
  rename_i l4 heq4
  exact ⟨l4, h⟩

/-- A URL captured by a testing attempt never contains `]`. -/
theorem testingLinkAt_no_bracket :
    ∀ {l u : List Char}, testingLinkAt l = some u → ∀ c ∈ u, c ≠ ']' := by
  intro l u h
  unfold testingLinkAt at h
  split at h
  all_goals try exact Option.noConfusion h
  split at h
  · exact Option.noConfusion h
  split at h
  all_goals try exact Option.noConfusion h
  rename_i l2 heq2
  unfold testingBracketPart at h
  split at h
  all_goals try exact Option.noConfusion h
  split at h
  all_goals try exact Option.noConfusion h
  rename_i v r heqv
  split at h
  · exact Option.noConfusion h
  split at h
  all_goals try exact Option.noConfusion h
  simp only [Option.some_inj] at h
  intro c hc
  rw [← h] at hc
  rcases List.mem_append.mp hc with hc1 | hc1
  · intro hcc
    have := matchHttpScheme_chars heqv c hc1
    rw [hcc] at this
    rw [show pyLower ']' = ']' from by decide] at this
    exact absurd this (by decide)
  · simpa using List.mem_takeWhile_imp hc1

/-- C10: a present `ticket_link` or `documentation_link` never contains
a `)` character and a present `testing_link` never contains a `]`
character (the closing delimiter of each capture is excluded from its
character class); consequently a URL containing the delimiter is
captured truncated at its first occurrence rather than verbatim, as the
concrete example shows. -/
theorem claim_C10 :
    (∀ (d u : List Char), (extract_links d).ticket_link = some u → ∀ c ∈ u, c ≠ ')') ∧
    (∀ (d u : List Char), (extract_links d).documentation_link = some u → ∀ c ∈ u, c ≠ ')') ∧
    (∀ (d u : List Char), (extract_links d).testing_link = some u → ∀ c ∈ u, c ≠ ']') ∧
    (extract_links ("Ticket Link: [t](https://e/x)y)".toList)).ticket_link =
      some ("https://e/x".toList) := by
  refine ⟨?_, ?_, ?_, by decide⟩
  · intro d u h
    unfold extract_links at h
    by_cases hd : d = []
    · rw [if_pos hd] at h
      exact Option.noConfusion h
    · rw [if_neg hd] at h
      have h' : (ticketLinkSearch d).map pyStrip = some u := h
      obtain ⟨a, ha, hstrip⟩ := Option.map_eq_some'.mp h'
      obtain ⟨s, hs⟩ := searchPos_some ha
      obtain ⟨l4, hmu⟩ := labeledLinkAt_url hs
      intro c hc
      exact matchUrlParen_no_paren hmu c (mem_pyStrip (hstrip ▸ hc))
  · intro d u h
    unfold extract_links at h
    by_cases hd : d = []
    · rw [if_pos hd] at h
      exact Option.noConfusion h
    · rw [if_neg hd] at h
      have h' : (documentationLinkSearch d).map pyStrip = some u := h
      obtain ⟨a, ha, hstrip⟩ := Option.map_eq_some'.mp h'
      obtain ⟨s, hs⟩ := searchPos_some ha
      obtain ⟨l4, hmu⟩ := labeledLinkAt_url hs
      intro c hc
      exact matchUrlParen_no_paren hmu c (mem_pyStrip (hstrip ▸ hc))
  · intro d u h
    unfold extract_links at h
    by_cases hd : d = []
    · rw [if_pos hd] at h
      exact Option.noConfusion h
    · rw [if_neg hd] at h
      have h' : (testingLinkSearch d).map pyStrip = some u := h
      obtain ⟨a, ha, hstrip⟩ := Option.map_eq_some'.mp h'
      obtain ⟨s, hs⟩ := searchPos_some ha
      intro c hc
      exact testingLinkAt_no_bracket hs c (mem_pyStrip (hstrip ▸ hc))

/-- Witness for C10 applying the invariant at the concrete truncated
capture. -/
theorem claim_C10_witness : ∀ c ∈ ("https://e/x".toList), c ≠ ')' :=
  claim_C10.1 ("Ticket Link: [t](https://e/x)y)".toList) ("https://e/x".toList) (by decide)
